import Mathlib

/-!
Verification of the ISO (Incentive Stock Option) exercise tax calculator
(`iso_analysis.py`).

The core of the program is a progressive-tax evaluation engine
(`Exemption.compute`, `TaxSchedule.compute_tax`) plus a root-finding wrapper
(`compute_spread`).  All Python arithmetic is IEEE double; we embed it over ℚ,
which is exact for every constant appearing in the program and preserves the
piecewise-linear algebra the claims are about.

Construction-time validation (pydantic `Field` constraints and the
`brackets_must_be_sorted` validator) is embedded as explicit constructor
functions returning `Except TaxError _`.
-/

/-- Error taxonomy of the design: configuration errors are raised at
construction time, `invalidInput` by `compute_tax` on negative income.
`rootFindingFailure` appears in the specification's taxonomy; the source
never raises it. -/
inductive TaxError where
  | invalidConfiguration : TaxError
  | invalidInput : TaxError
  | rootFindingFailure : TaxError
deriving DecidableEq, Repr

instance {ε α : Type} [DecidableEq ε] [DecidableEq α] :
    DecidableEq (Except ε α) := fun a b =>
  match a, b with
  | .ok x, .ok y =>
      if h : x = y then .isTrue (by rw [h]) else .isFalse (by simp [h])
  | .error x, .error y =>
      if h : x = y then .isTrue (by rw [h]) else .isFalse (by simp [h])
  | .ok _, .error _ => .isFalse (by simp)
  | .error _, .ok _ => .isFalse (by simp)

/-- `TaxBracket`: threshold where the rate begins, and the marginal rate. -/
structure TaxBracket where
  threshold : ℚ
  rate : ℚ
deriving DecidableEq, Repr

/-- Pydantic field constraints on `TaxBracket`: `threshold ≥ 0`,
`rate ∈ [0,1]`. -/
def TaxBracket.Valid (b : TaxBracket) : Prop :=
  0 ≤ b.threshold ∧ 0 ≤ b.rate ∧ b.rate ≤ 1

instance (b : TaxBracket) : Decidable b.Valid := by
  unfold TaxBracket.Valid; infer_instance

/-- `Exemption`: amount subtracted from income before applying brackets,
with optional linear phaseout. -/
structure Exemption where
  base_amount : ℚ
  phaseout_start : Option ℚ
  phaseout_rate : Option ℚ
deriving DecidableEq, Repr

/-- Pydantic field constraints on `Exemption`: `base_amount ≥ 0`,
`phaseout_start ≥ 0` when set, `phaseout_rate ∈ [0,1]` when set.
The source has no cross-field validator tying the two phaseout fields
together. -/
def Exemption.Valid (e : Exemption) : Prop :=
  0 ≤ e.base_amount ∧
  (∀ s, e.phaseout_start = some s → 0 ≤ s) ∧
  (∀ r, e.phaseout_rate = some r → 0 ≤ r ∧ r ≤ 1)

/-- Field validation of `Exemption` construction, from the pydantic `Field`
declarations (`ge=0` on `base_amount` and `phaseout_start`, `ge=0, le=1` on
`phaseout_rate`); a violation raises a pydantic `ValidationError`, mapped to
`invalidConfiguration` in the design's taxonomy. -/
def mkExemption (base_amount : ℚ) (phaseout_start phaseout_rate : Option ℚ) :
    Except TaxError Exemption :=
  if 0 ≤ base_amount ∧
      (∀ s ∈ phaseout_start, 0 ≤ s) ∧
      (∀ r ∈ phaseout_rate, 0 ≤ r ∧ r ≤ 1) then
    .ok ⟨base_amount, phaseout_start, phaseout_rate⟩
  else
    .error .invalidConfiguration

/-- `Exemption.compute`, embedded from the source:

    exemption = self.base_amount
    if self.phaseout_start is not None and self.phaseout_rate is not None:
        if income > self.phaseout_start:
            reduction = self.phaseout_rate * (income - self.phaseout_start)
            exemption = max(exemption - reduction, 0)
    return exemption
-/
def Exemption.compute (e : Exemption) (income : ℚ) : ℚ :=
  match e.phaseout_start, e.phaseout_rate with
  | some start, some rate =>
      if start < income then
        max (e.base_amount - rate * (income - start)) 0
      else
        e.base_amount
  | _, _ => e.base_amount

/-- `TaxSchedule`: year, labels, one exemption, ordered brackets. -/
structure TaxSchedule where
  year : ℤ
  filing_status : String
  name : String
  exemption : Exemption
  brackets : List TaxBracket
deriving DecidableEq, Repr

/-- The `brackets_must_be_sorted` validator checks
`thresholds != sorted(thresholds)`: the list of thresholds equals its own
(stable, non-strict) sort, i.e. each adjacent pair is non-decreasing. -/
def brackets_must_be_sorted : List TaxBracket → Bool
  | [] => true
  | [_] => true
  | b :: b' :: rest =>
      decide (b.threshold ≤ b'.threshold) && brackets_must_be_sorted (b' :: rest)

/-- Construction-time validation of `TaxSchedule`, from the pydantic field
constraints (`year ∈ [2000, 2100]`, `brackets` non-empty) and the
`brackets_must_be_sorted` validator.  A violation is an
`invalidConfiguration` error per the design taxonomy. -/
def mkTaxSchedule (year : ℤ) (filing_status name : String)
    (exemption : Exemption) (brackets : List TaxBracket) :
    Except TaxError TaxSchedule :=
  if 2000 ≤ year ∧ year ≤ 2100 ∧ 1 ≤ brackets.length ∧
      brackets_must_be_sorted brackets = true then
    .ok ⟨year, filing_status, name, exemption, brackets⟩
  else
    .error .invalidConfiguration

/-- Validity of a constructed `TaxSchedule`: all pydantic field constraints
hold (on the schedule, its exemption and each bracket) and the
`brackets_must_be_sorted` validator passed. -/
def TaxSchedule.Valid (s : TaxSchedule) : Prop :=
  2000 ≤ s.year ∧ s.year ≤ 2100 ∧
  s.brackets ≠ [] ∧
  (∀ b ∈ s.brackets, b.Valid) ∧
  s.exemption.Valid ∧
  brackets_must_be_sorted s.brackets = true

/-- The bracket loop of `compute_tax` (Step 3), embedded from the source:

    tax = 0.0
    for i, bracket in enumerate(self.brackets):
        next_threshold = self.brackets[i+1].threshold if i+1 < len(...) else inf
        if taxable <= bracket.threshold:
            break
        bracket_top = min(taxable, next_threshold)
        tax += (bracket_top - bracket.threshold) * bracket.rate
    return tax

For the last bracket `min(taxable, inf) = taxable`.  The `break` discards
every later bracket, which the recursion renders by returning `0` without
descending. -/
def bracketTax : List TaxBracket → ℚ → ℚ
  | [], _ => 0
  | [b], taxable =>
      if taxable ≤ b.threshold then 0
      else (taxable - b.threshold) * b.rate
  | b :: b' :: rest, taxable =>
      if taxable ≤ b.threshold then 0
      else (min taxable b'.threshold - b.threshold) * b.rate +
        bracketTax (b' :: rest) taxable

/-- `TaxSchedule.compute_tax`, embedded from the source: reject negative
income (`InvalidInput`), compute the exemption, return `0.0` if the taxable
amount is non-positive, otherwise run the bracket loop. -/
def TaxSchedule.compute_tax (s : TaxSchedule) (income : ℚ) :
    Except TaxError ℚ :=
  if income < 0 then
    .error .invalidInput
  else
    let exemption := s.exemption.compute income
    let taxable := income - exemption
    if taxable ≤ 0 then .ok 0
    else .ok (bracketTax s.brackets taxable)

/-- 2025 Ordinary Income Tax (Single Filer), from the module constants. -/
def ORDINARY_SCHEDULE : TaxSchedule :=
  { year := 2025
    filing_status := "Single"
    name := "Ordinary"
    exemption := { base_amount := 15750, phaseout_start := none, phaseout_rate := none }
    brackets :=
      [ ⟨0, 0.10⟩, ⟨11925, 0.12⟩, ⟨48475, 0.22⟩, ⟨103350, 0.24⟩,
        ⟨197300, 0.32⟩, ⟨250525, 0.35⟩, ⟨626350, 0.37⟩ ] }

/-- 2025 Alternative Minimum Tax (Single Filer), from the module constants. -/
def AMT_SCHEDULE : TaxSchedule :=
  { year := 2025
    filing_status := "Single"
    name := "AMT"
    exemption := { base_amount := 88100, phaseout_start := some 626350, phaseout_rate := some 0.25 }
    brackets := [ ⟨0, 0.26⟩, ⟨239100, 0.28⟩ ] }

/-- The solver objective of `compute_spread`, embedded from the source:
`objective(total) = amt.compute_tax(total) - ordinary.compute_tax(income)`
where `income` — the base, pre-exercise income — is held fixed in the second
term.  A `ValueError` raised by either `compute_tax` call propagates. -/
def objective (income : ℚ) (ordinary_schedule amt_schedule : TaxSchedule)
    (total_income : ℚ) : Except TaxError ℚ :=
  match amt_schedule.compute_tax total_income with
  | .error e => .error e
  | .ok amt_tax =>
      match ordinary_schedule.compute_tax income with
      | .error e => .error e
      | .ok ordinary_tax => .ok (amt_tax - ordinary_tax)

/-- The initial guess passed to the root finder:
`income + amt_schedule.exemption.base_amount`. -/
def initial_guess (income : ℚ) (amt_schedule : TaxSchedule) : ℚ :=
  income + amt_schedule.exemption.base_amount

set_option linter.unusedVariables false in
/-- `compute_spread`, embedded from the source.  `scipy.optimize.root` is an
external iterative numerical routine; we model it by its returned iterate
`rootResult` (the source's `result.x[0]`), so every claim about
`compute_spread` is stated over an arbitrary solver outcome, with convergence
expressed as a hypothesis on `objective income ... rootResult`.  The source
returns `result.x[0] - income` unconditionally — it never inspects
`result.success` or the residual. -/
def compute_spread (income : ℚ) (ordinary_schedule amt_schedule : TaxSchedule)
    (rootResult : ℚ) : ℚ :=
  rootResult - income

/-! ### Helper lemmas about the embedded operations -/

theorem brackets_must_be_sorted_cons_cons {b b' : TaxBracket} {rest : List TaxBracket}
    (h : brackets_must_be_sorted (b :: b' :: rest) = true) :
    b.threshold ≤ b'.threshold ∧ brackets_must_be_sorted (b' :: rest) = true := by
  simpa only [brackets_must_be_sorted, Bool.and_eq_true, decide_eq_true_eq] using h

/-- The bracket loop never produces a negative total when the brackets are
sorted and all rates are non-negative. -/
theorem bracketTax_nonneg : ∀ (bs : List TaxBracket) (t : ℚ),
    brackets_must_be_sorted bs = true → (∀ b ∈ bs, 0 ≤ b.rate) →
    0 ≤ bracketTax bs t
  | [], _, _, _ => le_refl 0
  | [b], t, _, hr => by
      have hb : 0 ≤ b.rate := hr b (by simp)
      simp only [bracketTax]
      split
      · exact le_refl 0
      · next h =>
          have ht : b.threshold < t := lt_of_not_le h
          nlinarith
  | b :: b' :: rest, t, hs, hr => by
      obtain ⟨h1, h2⟩ := brackets_must_be_sorted_cons_cons hs
      have ih := bracketTax_nonneg (b' :: rest) t h2
        (fun x hx => hr x (List.mem_cons_of_mem _ hx))
      have hb : 0 ≤ b.rate := hr b (by simp)
      simp only [bracketTax]
      split
      · exact le_refl 0
      · next h =>
          have ht : b.threshold < t := lt_of_not_le h
          have hmin : b.threshold ≤ min t b'.threshold := le_min (le_of_lt ht) h1
          nlinarith

/-- The bracket loop is monotone in the taxable amount when the brackets are
sorted and all rates are non-negative. -/
theorem bracketTax_mono : ∀ (bs : List TaxBracket) (a b : ℚ),
    brackets_must_be_sorted bs = true → (∀ x ∈ bs, 0 ≤ x.rate) → a ≤ b →
    bracketTax bs a ≤ bracketTax bs b
  | [], _, _, _, _, _ => le_refl 0
  | [x], a, b, _, hr, hab => by
      have hx : 0 ≤ x.rate := hr x (by simp)
      by_cases hta : a ≤ x.threshold
      · simp only [bracketTax, if_pos hta]
        split
        · exact le_refl 0
        · next h2 =>
            have : x.threshold < b := lt_of_not_le h2
            nlinarith
      · have htb : ¬ b ≤ x.threshold := fun h => hta (le_trans hab h)
        simp only [bracketTax, if_neg hta, if_neg htb]
        nlinarith
  | x :: x' :: rest, a, b, hs, hr, hab => by
      obtain ⟨h1, h2⟩ := brackets_must_be_sorted_cons_cons hs
      have hx : 0 ≤ x.rate := hr x (by simp)
      have hr' : ∀ y ∈ x' :: rest, 0 ≤ y.rate :=
        fun y hy => hr y (List.mem_cons_of_mem _ hy)
      by_cases hta : a ≤ x.threshold
      · have h0 : bracketTax (x :: x' :: rest) a = 0 := by
          simp only [bracketTax, if_pos hta]
        rw [h0]
        exact bracketTax_nonneg (x :: x' :: rest) b hs hr
      · have htb : ¬ b ≤ x.threshold := fun h => hta (le_trans hab h)
        have ih := bracketTax_mono (x' :: rest) a b h2 hr' hab
        simp only [bracketTax, if_neg hta, if_neg htb]
        have hmin : min a x'.threshold ≤ min b x'.threshold := min_le_min hab le_rfl
        nlinarith [mul_le_mul_of_nonneg_right hmin hx]

/-- `Exemption.compute` never returns a negative value when `base_amount` is
non-negative. -/
theorem Exemption.compute_nonneg (e : Exemption) (income : ℚ)
    (hb : 0 ≤ e.base_amount) : 0 ≤ e.compute income := by
  unfold Exemption.compute
  cases hps : e.phaseout_start with
  | none => exact hb
  | some start =>
      cases hpr : e.phaseout_rate with
      | none => exact hb
      | some rate =>
          dsimp only
          split
          · exact le_max_right _ 0
          · exact hb

/-- `Exemption.compute` never exceeds `base_amount` when the phaseout rate is
non-negative (the reduction only subtracts). -/
theorem Exemption.compute_le_base (e : Exemption) (income : ℚ)
    (hb : 0 ≤ e.base_amount)
    (hr : ∀ r, e.phaseout_rate = some r → 0 ≤ r) :
    e.compute income ≤ e.base_amount := by
  unfold Exemption.compute
  cases hps : e.phaseout_start with
  | none => exact le_refl _
  | some start =>
      cases hpr : e.phaseout_rate with
      | none => exact le_refl _
      | some rate =>
          have hrate : 0 ≤ rate := hr rate hpr
          dsimp only
          split
          · next h => exact max_le (by nlinarith) hb
          · exact le_refl _

/-- `Exemption.compute` is antitone in income: a larger income never enjoys a
larger exemption (requires non-negative `base_amount` and phaseout rate). -/
theorem Exemption.compute_antitone (e : Exemption) {a b : ℚ}
    (hb : 0 ≤ e.base_amount)
    (hr : ∀ r, e.phaseout_rate = some r → 0 ≤ r)
    (hab : a ≤ b) : e.compute b ≤ e.compute a := by
  unfold Exemption.compute
  cases hps : e.phaseout_start with
  | none => exact le_refl _
  | some start =>
      cases hpr : e.phaseout_rate with
      | none => exact le_refl _
      | some rate =>
          have hrate : 0 ≤ rate := hr rate hpr
          dsimp only
          by_cases ha : start < a
          · rw [if_pos ha, if_pos (lt_of_lt_of_le ha hab)]
            have : e.base_amount - rate * (b - start) ≤
                e.base_amount - rate * (a - start) := by nlinarith
            exact max_le_max this (le_refl 0)
          · rw [if_neg ha]
            split
            · next hbgt => exact max_le (by nlinarith [lt_of_lt_of_le hbgt (le_refl b)]) hb
            · exact le_refl _

/-- When phaseout is not active at a given income — one of the two phaseout
fields is unset, or the income does not exceed `phaseout_start` — the
exemption equals the full `base_amount`. -/
theorem Exemption.compute_eq_base_of_inactive (e : Exemption) (income : ℚ)
    (h : e.phaseout_start = none ∨ e.phaseout_rate = none ∨
      ∃ ps, e.phaseout_start = some ps ∧ income ≤ ps) :
    e.compute income = e.base_amount := by
  unfold Exemption.compute
  cases hps : e.phaseout_start with
  | none => rfl
  | some start =>
      cases hpr : e.phaseout_rate with
      | none => rfl
      | some rate =>
          dsimp only
          rcases h with h | h | ⟨ps, hps', hle⟩
          · exact absurd hps (h ▸ by simp [h])
          · exact absurd hpr (h ▸ by simp [h])
          · rw [hps] at hps'
            injection hps' with hpe
            rw [if_neg (by rw [hpe]; exact not_lt_of_le hle)]

/-! ### Specification-side description of the bracket walk (for claim C2)

The following definitions are written from the specification's words, not
from the source: "walk brackets in ascending threshold order; for each
bracket `i` with `threshold_i` and next bracket's threshold `threshold_{i+1}`
(or +infinity if last), if `taxable <= threshold_i` stop accumulating;
otherwise add `rate_i * (min(taxable, threshold_{i+1}) - threshold_i)` to the
running total", with "`taxable = income - exemption`; if `taxable <= 0`,
return `0.0` immediately".  `none` stands for the +infinity upper bound of
the last bracket, for which `min(taxable, +infinity) = taxable`. -/

/-- Pair each bracket with the next bracket's threshold, `none` standing for
+infinity on the last bracket. -/
def withNext : List TaxBracket → List (TaxBracket × Option ℚ)
  | [] => []
  | [b] => [(b, none)]
  | b :: b' :: rest => (b, some b'.threshold) :: withNext (b' :: rest)

/-- The specification's running total over the bracket walk: stop as soon as
`taxable ≤ threshold_i`, otherwise accumulate
`rate_i * (min(taxable, threshold_{i+1}) - threshold_i)`. -/
def specAccum (taxable : ℚ) : List (TaxBracket × Option ℚ) → ℚ
  | [] => 0
  | (b, nxt) :: rest =>
      if taxable ≤ b.threshold then 0
      else
        b.rate * ((match nxt with | none => taxable | some n => min taxable n)
          - b.threshold) + specAccum taxable rest

/-- The specification's description of `compute_tax` on a valid (non-negative)
income: subtract the exemption, return `0.0` for non-positive taxable income,
otherwise run the stacked marginal-bracket accumulation. -/
def computeTaxSpec (s : TaxSchedule) (income : ℚ) : ℚ :=
  let taxable := income - s.exemption.compute income
  if taxable ≤ 0 then 0 else specAccum taxable (withNext s.brackets)

/-- The source's bracket loop computes exactly the specification's stacked
marginal-bracket accumulation. -/
theorem bracketTax_eq_specAccum : ∀ (bs : List TaxBracket) (t : ℚ),
    bracketTax bs t = specAccum t (withNext bs)
  | [], t => rfl
  | [b], t => by
      simp only [bracketTax, withNext, specAccum]
      split
      · rfl
      · ring
  | b :: b' :: rest, t => by
      have ih := bracketTax_eq_specAccum (b' :: rest) t
      simp only [bracketTax, withNext, specAccum]
      split
      · rfl
      · rw [ih]; ring

/-- The 2025 ordinary schedule satisfies every construction-time constraint. -/
theorem ORDINARY_SCHEDULE_valid : ORDINARY_SCHEDULE.Valid := by
  refine ⟨by norm_num [ORDINARY_SCHEDULE], by norm_num [ORDINARY_SCHEDULE],
    by simp [ORDINARY_SCHEDULE], ?_, ?_, by decide⟩
  · intro b hb
    simp only [ORDINARY_SCHEDULE, List.mem_cons, List.not_mem_nil, or_false] at hb
    rcases hb with h | h | h | h | h | h | h <;> subst h <;>
      exact ⟨by norm_num, by norm_num, by norm_num⟩
  · exact ⟨by norm_num [ORDINARY_SCHEDULE], by simp [ORDINARY_SCHEDULE],
      by simp [ORDINARY_SCHEDULE]⟩

/-- The 2025 AMT schedule satisfies every construction-time constraint. -/
theorem AMT_SCHEDULE_valid : AMT_SCHEDULE.Valid := by
  refine ⟨by norm_num [AMT_SCHEDULE], by norm_num [AMT_SCHEDULE],
    by simp [AMT_SCHEDULE], ?_, ?_, by decide⟩
  · intro b hb
    simp only [AMT_SCHEDULE, List.mem_cons, List.not_mem_nil, or_false] at hb
    rcases hb with h | h <;> subst h <;>
      exact ⟨by norm_num, by norm_num, by norm_num⟩
  · refine ⟨by norm_num [AMT_SCHEDULE], ?_, ?_⟩
    · intro s hs
      simp only [AMT_SCHEDULE, Option.some.injEq] at hs
      subst hs; norm_num
    · intro r hr
      simp only [AMT_SCHEDULE, Option.some.injEq] at hr
      subst hr; norm_num

/-! ### Claim theorems -/

/-- Claim C3: `Exemption.compute` returns `base_amount` when `phaseout_start`
is unset or the income does not exceed it, returns
`max(base_amount - phaseout_rate * (income - phaseout_start), 0)` when
phaseout is configured and the income exceeds `phaseout_start`, and is never
negative. -/
theorem exemption_compute_contract (e : Exemption) (income : ℚ)
    (he : e.Valid) :
    (e.phaseout_start = none → e.compute income = e.base_amount) ∧
    (∀ ps, e.phaseout_start = some ps → income ≤ ps →
      e.compute income = e.base_amount) ∧
    (∀ ps pr, e.phaseout_start = some ps → e.phaseout_rate = some pr →
      ps < income →
      e.compute income = max (e.base_amount - pr * (income - ps)) 0) ∧
    0 ≤ e.compute income := by
  refine ⟨?_, ?_, ?_, Exemption.compute_nonneg e income he.1⟩
  · intro h
    exact Exemption.compute_eq_base_of_inactive e income (Or.inl h)
  · intro ps hps hle
    exact Exemption.compute_eq_base_of_inactive e income
      (Or.inr (Or.inr ⟨ps, hps, hle⟩))
  · intro ps pr hps hpr hlt
    unfold Exemption.compute
    rw [hps, hpr]
    dsimp only
    rw [if_pos hlt]

/-- Witness for C3: the 2025 AMT exemption at an income of 700000, inside the
phaseout region. -/
theorem exemption_compute_contract_witness :
    (AMT_SCHEDULE.exemption.phaseout_start = none →
      AMT_SCHEDULE.exemption.compute 700000 = AMT_SCHEDULE.exemption.base_amount) ∧
    (∀ ps, AMT_SCHEDULE.exemption.phaseout_start = some ps → (700000:ℚ) ≤ ps →
      AMT_SCHEDULE.exemption.compute 700000 = AMT_SCHEDULE.exemption.base_amount) ∧
    (∀ ps pr, AMT_SCHEDULE.exemption.phaseout_start = some ps →
      AMT_SCHEDULE.exemption.phaseout_rate = some pr → ps < 700000 →
      AMT_SCHEDULE.exemption.compute 700000 =
        max (AMT_SCHEDULE.exemption.base_amount - pr * (700000 - ps)) 0) ∧
    (0:ℚ) ≤ AMT_SCHEDULE.exemption.compute 700000 :=
  exemption_compute_contract AMT_SCHEDULE.exemption 700000
    AMT_SCHEDULE_valid.2.2.2.2.1

/-- Claim C10: `Exemption.compute` is total, and on negative income (with a
non-negative or unset `phaseout_start`) it returns `base_amount`, exactly as
for any income at or below the phaseout start: there is no input validation
or error branch. -/
theorem exemption_compute_negative_income (e : Exemption) (income : ℚ)
    (hneg : income < 0)
    (hps : e.phaseout_start = none ∨ ∃ s, e.phaseout_start = some s ∧ 0 ≤ s) :
    e.compute income = e.base_amount := by
  apply Exemption.compute_eq_base_of_inactive
  rcases hps with h | ⟨s, hs, hnn⟩
  · exact Or.inl h
  · exact Or.inr (Or.inr ⟨s, hs, le_trans (le_of_lt hneg) hnn⟩)

/-- Witness for C10: the 2025 AMT exemption at income -5. -/
theorem exemption_compute_negative_income_witness :
    AMT_SCHEDULE.exemption.compute (-5) = AMT_SCHEDULE.exemption.base_amount :=
  exemption_compute_negative_income AMT_SCHEDULE.exemption (-5) (by norm_num)
    (Or.inr ⟨626350, rfl, by norm_num⟩)

/-- Claim C7 is false as stated: a valid `TaxSchedule` whose exemption phases
out at a rate of 1 starting at income 0 taxes an income of 60 — strictly
below the exemption `base_amount` of 100 — at a positive amount (the
exemption has already phased down to 40, leaving 20 taxable at rate 1/2). -/
theorem compute_tax_below_base_counterexample :
    TaxSchedule.Valid ⟨2025, "Single", "Test", ⟨100, some 0, some 1⟩, [⟨0, 1/2⟩]⟩ ∧
    (0:ℚ) ≤ 60 ∧
    (60:ℚ) < (⟨100, some 0, some 1⟩ : Exemption).base_amount ∧
    TaxSchedule.compute_tax
      ⟨2025, "Single", "Test", ⟨100, some 0, some 1⟩, [⟨0, 1/2⟩]⟩ 60 = .ok 10 ∧
    (10:ℚ) ≠ 0 := by
  refine ⟨⟨by norm_num, by norm_num, by simp, ?_, ⟨by norm_num, ?_, ?_⟩, by decide⟩,
    by norm_num, by norm_num,
    by norm_num [TaxSchedule.compute_tax, Exemption.compute, bracketTax, max_def],
    by norm_num⟩
  · intro b hb
    simp only [List.mem_cons, List.not_mem_nil, or_false] at hb
    subst hb
    exact ⟨by norm_num, by norm_num, by norm_num⟩
  · intro s hs
    injection hs with h
    rw [← h]
  · intro r hr
    injection hr with h
    rw [← h]
    norm_num

/-- Claim C7, amended: the guarantee holds whenever the exemption phaseout is
not active at that income — phaseout unset, or income at or below
`phaseout_start` — so that the exemption still equals `base_amount`. -/
theorem compute_tax_below_base_amended (s : TaxSchedule) (income : ℚ)
    (h0 : 0 ≤ income)
    (hlt : income < s.exemption.base_amount)
    (hinactive : s.exemption.phaseout_start = none ∨
      s.exemption.phaseout_rate = none ∨
      ∃ ps, s.exemption.phaseout_start = some ps ∧ income ≤ ps) :
    s.compute_tax income = .ok 0 := by
  have hbase := Exemption.compute_eq_base_of_inactive s.exemption income hinactive
  simp only [TaxSchedule.compute_tax, hbase, if_neg (not_lt_of_le h0)]
  rw [if_pos (by linarith)]

/-- Witness for the amended C7: the 2025 ordinary schedule returns zero tax on
an income of 10000, below its standard deduction of 15750. -/
theorem compute_tax_below_base_amended_witness :
    ORDINARY_SCHEDULE.compute_tax 10000 = .ok 0 :=
  compute_tax_below_base_amended ORDINARY_SCHEDULE 10000
    (by norm_num) (by norm_num [ORDINARY_SCHEDULE]) (Or.inl rfl)

/-- Claim C6: `compute_tax` fails with `InvalidInput` exactly on negative
income, and on every non-negative income it succeeds with a non-negative tax.
The embedding is a pure function of the schedule and the income, so a failed
call cannot perturb later calls. -/
theorem compute_tax_invalid_input_iff (s : TaxSchedule) (income : ℚ)
    (hv : s.Valid) :
    (s.compute_tax income = .error .invalidInput ↔ income < 0) ∧
    (0 ≤ income → ∃ t, s.compute_tax income = .ok t ∧ 0 ≤ t) := by
  obtain ⟨-, -, -, hbr, -, hsorted⟩ := hv
  by_cases hneg : income < 0
  · refine ⟨⟨fun _ => hneg, fun _ => ?_⟩, fun h0 => absurd hneg (not_lt_of_le h0)⟩
    simp [TaxSchedule.compute_tax, hneg]
  · have hok : ∃ t, s.compute_tax income = .ok t ∧ 0 ≤ t := by
      simp only [TaxSchedule.compute_tax, if_neg hneg]
      by_cases ht : income - s.exemption.compute income ≤ 0
      · exact ⟨0, by rw [if_pos ht], le_refl 0⟩
      · refine ⟨_, by rw [if_neg ht], ?_⟩
        exact bracketTax_nonneg s.brackets _ hsorted (fun b hb => (hbr b hb).2.1)
    obtain ⟨t, hteq, -⟩ := id hok
    refine ⟨⟨fun herr => ?_, fun hlt => absurd hlt hneg⟩, fun _ => hok⟩
    rw [hteq] at herr
    exact Except.noConfusion herr

/-- Witness for C6: the 2025 ordinary schedule at income -5. -/
theorem compute_tax_invalid_input_iff_witness :
    (ORDINARY_SCHEDULE.compute_tax (-5) = .error .invalidInput ↔ (-5:ℚ) < 0) ∧
    ((0:ℚ) ≤ -5 → ∃ t, ORDINARY_SCHEDULE.compute_tax (-5) = .ok t ∧ 0 ≤ t) :=
  compute_tax_invalid_input_iff ORDINARY_SCHEDULE (-5) ORDINARY_SCHEDULE_valid

/-- Claim C2: on every non-negative income, `compute_tax` returns exactly the
specification's stacked marginal-bracket accumulation `computeTaxSpec` —
immediate `0.0` for non-positive taxable income, otherwise the walk that
stops at the first bracket whose threshold is at least the taxable amount and
adds `rate_i * (min(taxable, threshold_next) - threshold_i)` for each
earlier bracket. -/
theorem compute_tax_matches_spec_walk (s : TaxSchedule) (income : ℚ)
    (h0 : 0 ≤ income) :
    s.compute_tax income = .ok (computeTaxSpec s income) := by
  simp only [TaxSchedule.compute_tax, computeTaxSpec, if_neg (not_lt_of_le h0)]
  by_cases ht : income - s.exemption.compute income ≤ 0
  · rw [if_pos ht, if_pos ht]
  · rw [if_neg ht, if_neg ht, bracketTax_eq_specAccum]

/-- Witness for C2: the 2025 ordinary schedule at income 100000 (the spec's
concrete scenario 1, value 13449). -/
theorem compute_tax_matches_spec_walk_witness :
    ORDINARY_SCHEDULE.compute_tax 100000 =
      .ok (computeTaxSpec ORDINARY_SCHEDULE 100000) :=
  compute_tax_matches_spec_walk ORDINARY_SCHEDULE 100000 (by norm_num)

/-- Claim C9: for a fixed valid schedule, `compute_tax` is non-decreasing:
`0 ≤ a ≤ b` gives tax values `ta ≤ tb`. -/
theorem compute_tax_monotone (s : TaxSchedule) (a b : ℚ) (hv : s.Valid)
    (h0 : 0 ≤ a) (hab : a ≤ b) :
    ∃ ta tb, s.compute_tax a = .ok ta ∧ s.compute_tax b = .ok tb ∧ ta ≤ tb := by
  obtain ⟨-, -, -, hbr, hex, hsorted⟩ := hv
  obtain ⟨hbase, -, hprn⟩ := hex
  have hb0 : 0 ≤ b := le_trans h0 hab
  have hrates : ∀ x ∈ s.brackets, 0 ≤ x.rate := fun x hx => (hbr x hx).2.1
  have hanti : s.exemption.compute b ≤ s.exemption.compute a :=
    Exemption.compute_antitone s.exemption hbase (fun r hr => (hprn r hr).1) hab
  have htax : a - s.exemption.compute a ≤ b - s.exemption.compute b := by
    linarith
  simp only [TaxSchedule.compute_tax, if_neg (not_lt_of_le h0),
    if_neg (not_lt_of_le hb0)]
  by_cases hta : a - s.exemption.compute a ≤ 0
  · rw [if_pos hta]
    by_cases htb : b - s.exemption.compute b ≤ 0
    · rw [if_pos htb]
      exact ⟨0, 0, rfl, rfl, le_refl 0⟩
    · rw [if_neg htb]
      exact ⟨0, _, rfl, rfl, bracketTax_nonneg s.brackets _ hsorted hrates⟩
  · have htb : ¬ b - s.exemption.compute b ≤ 0 := fun h => hta (le_trans htax h)
    rw [if_neg hta, if_neg htb]
    exact ⟨_, _, rfl, rfl, bracketTax_mono s.brackets _ _ hsorted hrates htax⟩

/-- Witness for C9: the 2025 AMT schedule between incomes 300000 and 700000
(crossing the phaseout kink). -/
theorem compute_tax_monotone_witness :
    ∃ ta tb, AMT_SCHEDULE.compute_tax 300000 = .ok ta ∧
      AMT_SCHEDULE.compute_tax 700000 = .ok tb ∧ ta ≤ tb :=
  compute_tax_monotone AMT_SCHEDULE 300000 700000 AMT_SCHEDULE_valid
    (by norm_num) (by norm_num)

/-- Claim C1: whenever the root-finder converges — its final iterate has a
residual below the 1e-2 dollar tolerance — `compute_spread` returns a spread
`s` such that the AMT tax on `income + s` differs from the ordinary tax on
the fixed, un-exercised base income by less than 1e-2; the ordinary tax is
evaluated only on the base income. -/
theorem compute_spread_convergence (income : ℚ)
    (ordinary_schedule amt_schedule : TaxSchedule) (rootResult : ℚ)
    (_h0 : 0 ≤ income)
    (hconv : ∃ r, objective income ordinary_schedule amt_schedule rootResult
      = .ok r ∧ |r| < 1/100) :
    ∃ amt_tax ordinary_tax,
      amt_schedule.compute_tax
        (income + compute_spread income ordinary_schedule amt_schedule rootResult)
        = .ok amt_tax ∧
      ordinary_schedule.compute_tax income = .ok ordinary_tax ∧
      |amt_tax - ordinary_tax| < 1/100 := by
  obtain ⟨r, hr, hrlt⟩ := hconv
  have htot : income + compute_spread income ordinary_schedule amt_schedule rootResult
      = rootResult := by
    unfold compute_spread; ring
  rw [htot]
  unfold objective at hr
  cases ha : amt_schedule.compute_tax rootResult with
  | error e =>
      rw [ha] at hr
      exact Except.noConfusion hr
  | ok a =>
      rw [ha] at hr
      cases ho : ordinary_schedule.compute_tax income with
      | error e =>
          rw [ho] at hr
          exact Except.noConfusion hr
      | ok o =>
          rw [ho] at hr
          refine ⟨a, o, rfl, rfl, ?_⟩
          injection hr with h
          rw [h]
          exact hrlt

/-- Witness for C1: base income 100000, with the exact crossing point
`88100 + 672450/13` as the solver iterate (AMT tax there equals the ordinary
tax 13449 of the spec's concrete scenario 1, so the residual is 0). -/
theorem compute_spread_convergence_witness :
    ∃ amt_tax ordinary_tax,
      AMT_SCHEDULE.compute_tax
        (100000 + compute_spread 100000 ORDINARY_SCHEDULE AMT_SCHEDULE
          (88100 + 672450/13)) = .ok amt_tax ∧
      ORDINARY_SCHEDULE.compute_tax 100000 = .ok ordinary_tax ∧
      |amt_tax - ordinary_tax| < 1/100 :=
  compute_spread_convergence 100000 ORDINARY_SCHEDULE AMT_SCHEDULE
    (88100 + 672450/13) (by norm_num)
    ⟨0, by norm_num [objective, TaxSchedule.compute_tax, Exemption.compute,
      bracketTax, ORDINARY_SCHEDULE, AMT_SCHEDULE, min_def], by norm_num⟩

/-- Claim C4 is false as stated: with base income 100000 and solver iterate
500000 the residual is 97101 — far above any tolerance, i.e. the root-finder
has not converged on a root — yet `compute_spread` still returns the numeric
spread 400000 instead of failing with `RootFindingFailure`; the source never
inspects the solver's success flag or residual. -/
theorem compute_spread_no_failure_counterexample :
    objective 100000 ORDINARY_SCHEDULE AMT_SCHEDULE 500000 = .ok 97101 ∧
    (1:ℚ)/100 ≤ |(97101:ℚ)| ∧
    compute_spread 100000 ORDINARY_SCHEDULE AMT_SCHEDULE 500000 = 400000 := by
  refine ⟨?_, by norm_num, by norm_num [compute_spread]⟩
  norm_num [objective, TaxSchedule.compute_tax, Exemption.compute, bracketTax,
    ORDINARY_SCHEDULE, AMT_SCHEDULE, min_def]

/-- Claim C4, amended: `compute_spread` performs no convergence check — even
when the residual `r` at the solver's final iterate is at least the 1e-2
tolerance, it returns the numeric value `result.x[0] - income`, at which the
AMT-versus-ordinary residual is still exactly `r`; no `RootFindingFailure`
error is ever produced (that error kind is the specification's hardening
requirement, absent from the code). -/
theorem compute_spread_no_convergence_check (income : ℚ)
    (ordinary_schedule amt_schedule : TaxSchedule) (rootResult r : ℚ)
    (hres : objective income ordinary_schedule amt_schedule rootResult = .ok r)
    (_hbig : 1/100 ≤ |r|) :
    compute_spread income ordinary_schedule amt_schedule rootResult
      = rootResult - income ∧
    ∃ amt_tax ordinary_tax,
      amt_schedule.compute_tax
        (income + compute_spread income ordinary_schedule amt_schedule rootResult)
        = .ok amt_tax ∧
      ordinary_schedule.compute_tax income = .ok ordinary_tax ∧
      amt_tax - ordinary_tax = r := by
  have htot : income + compute_spread income ordinary_schedule amt_schedule rootResult
      = rootResult := by
    unfold compute_spread; ring
  refine ⟨rfl, ?_⟩
  rw [htot]
  unfold objective at hres
  cases ha : amt_schedule.compute_tax rootResult with
  | error e =>
      rw [ha] at hres
      exact Except.noConfusion hres
  | ok a =>
      rw [ha] at hres
      cases ho : ordinary_schedule.compute_tax income with
      | error e =>
          rw [ho] at hres
          exact Except.noConfusion hres
      | ok o =>
          rw [ho] at hres
          refine ⟨a, o, rfl, rfl, ?_⟩
          injection hres

/-- Witness for the amended C4: the non-converged scenario of the
counterexample (iterate 500000, residual 97101). -/
theorem compute_spread_no_convergence_check_witness :
    compute_spread 100000 ORDINARY_SCHEDULE AMT_SCHEDULE 500000
      = 500000 - 100000 ∧
    ∃ amt_tax ordinary_tax,
      AMT_SCHEDULE.compute_tax
        (100000 + compute_spread 100000 ORDINARY_SCHEDULE AMT_SCHEDULE 500000)
        = .ok amt_tax ∧
      ORDINARY_SCHEDULE.compute_tax 100000 = .ok ordinary_tax ∧
      amt_tax - ordinary_tax = 97101 :=
  compute_spread_no_convergence_check 100000 ORDINARY_SCHEDULE AMT_SCHEDULE
    500000 97101
    (by norm_num [objective, TaxSchedule.compute_tax, Exemption.compute,
      bracketTax, ORDINARY_SCHEDULE, AMT_SCHEDULE, min_def])
    (by norm_num)

/-- Claim C5 is false as stated: the validator compares the threshold list
with its (non-strict) sort, so a bracket sequence with two equal thresholds
passes validation and construction succeeds. -/
theorem equal_thresholds_accepted_counterexample :
    mkTaxSchedule 2025 "Single" "Test" ⟨100, none, none⟩
      [⟨100, 0.10⟩, ⟨100, 0.20⟩] =
    .ok ⟨2025, "Single", "Test", ⟨100, none, none⟩,
      [⟨100, 0.10⟩, ⟨100, 0.20⟩]⟩ := by
  unfold mkTaxSchedule
  rw [if_pos]
  exact ⟨by norm_num, by norm_num, by norm_num, by decide⟩

/-- Claim C5, amended: with the year in range and a non-empty bracket list,
construction fails with `InvalidConfiguration` exactly when the threshold
sequence is not sorted non-decreasing; equal adjacent thresholds are
accepted.  In particular `[{threshold:100,...},{threshold:50,...}]` fails. -/
theorem mkTaxSchedule_sorted_iff (year : ℤ) (filing_status name : String)
    (exemption : Exemption) (brackets : List TaxBracket)
    (hy1 : 2000 ≤ year) (hy2 : year ≤ 2100) (hne : 1 ≤ brackets.length) :
    mkTaxSchedule year filing_status name exemption brackets
      = .error .invalidConfiguration ↔
    brackets_must_be_sorted brackets = false := by
  unfold mkTaxSchedule
  constructor
  · intro herr
    by_contra hsor
    rw [Bool.not_eq_false] at hsor
    rw [if_pos ⟨hy1, hy2, hne, hsor⟩] at herr
    exact Except.noConfusion herr
  · intro hsor
    rw [if_neg]
    rintro ⟨-, -, -, h⟩
    rw [h] at hsor
    exact Bool.noConfusion hsor

/-- Witness for the amended C5: the spec's concrete descending pair
`[{threshold:100,...},{threshold:50,...}]` is rejected at construction. -/
theorem mkTaxSchedule_sorted_iff_witness :
    mkTaxSchedule 2025 "Single" "Test" ⟨100, none, none⟩
      [⟨100, 0.10⟩, ⟨50, 0.20⟩] = .error .invalidConfiguration :=
  (mkTaxSchedule_sorted_iff 2025 "Single" "Test" ⟨100, none, none⟩
    [⟨100, 0.10⟩, ⟨50, 0.20⟩] (by norm_num) (by norm_num) (by norm_num)).mpr
    (by decide)

/-- Claim C8 is false as stated: `Exemption` has no cross-field phaseout
validator, so constructing one with `phaseout_start` set and `phaseout_rate`
unset succeeds instead of failing with `InvalidConfiguration`. -/
theorem exemption_one_phaseout_field_counterexample :
    mkExemption 100 (some 200) none = .ok ⟨100, some 200, none⟩ := by
  unfold mkExemption
  rw [if_pos]
  exact ⟨by norm_num, by decide, by decide⟩

/-- Claim C8, amended: constructing an `Exemption` with exactly one of the
phaseout fields set (each satisfying its own field constraint) succeeds, and
the phaseout is simply inactive — `compute` returns `base_amount` on every
income. -/
theorem mkExemption_one_field_inactive (base_amount : ℚ)
    (phaseout_start phaseout_rate : Option ℚ)
    (hb : 0 ≤ base_amount)
    (hs : ∀ s ∈ phaseout_start, 0 ≤ s)
    (hr : ∀ r ∈ phaseout_rate, 0 ≤ r ∧ r ≤ 1)
    (hone : phaseout_start = none ∨ phaseout_rate = none) :
    ∃ e, mkExemption base_amount phaseout_start phaseout_rate = .ok e ∧
      ∀ income, e.compute income = e.base_amount := by
  refine ⟨⟨base_amount, phaseout_start, phaseout_rate⟩, ?_, ?_⟩
  · unfold mkExemption
    rw [if_pos ⟨hb, hs, hr⟩]
  · intro income
    apply Exemption.compute_eq_base_of_inactive
    rcases hone with h | h
    · exact Or.inl h
    · exact Or.inr (Or.inl h)

/-- Witness for the amended C8: base 100 with only `phaseout_start := 200`
set. -/
theorem mkExemption_one_field_inactive_witness :
    ∃ e, mkExemption 100 (some 200) none = .ok e ∧
      ∀ income, e.compute income = e.base_amount :=
  mkExemption_one_field_inactive 100 (some 200) none (by norm_num)
    (by decide) (by decide) (Or.inr rfl)
